import Mathlib

/-!
Verification development for the PubMed scraper (`src/pubmed_scraper.py`).

The script manipulates the semi-structured values produced by `Entrez.read`:
nested dictionaries, lists, and (possibly attributed) strings.  We embed
those values as the inductive type `PyVal` and translate each Python
operation the script performs (`.get`, `in`, indexing, `len`, truthiness,
iteration, `str`, `join`) into a Lean function with the same behaviour on
these three shapes.  Operations that can raise in Python (`.get` on a
non-dict, indexing, joining non-strings) return `Except String α`, the
error string naming the Python exception class.
-/

namespace Scraper

/-- A value of the shape produced by `Entrez.read`: a string (Biopython
string elements carry an attribute mapping, e.g. `IdType` on article ids),
a list, or a string-keyed dictionary. -/
inductive PyVal where
  | str : String → List (String × String) → PyVal
  | list : List PyVal → PyVal
  | dict : List (String × PyVal) → PyVal

/-- First value bound to `k`, as Python dict lookup (keys are unique in
real dicts; an association list models them). -/
def dictLookup (es : List (String × PyVal)) (k : String) : Option PyVal :=
  (es.find? (fun e => e.1 == k)).map (fun e => e.2)

/-- Python `dict.get(k, d)`: total on dicts; on a string or list the
attribute does not exist and an `AttributeError` is raised. -/
def pyGet (v : PyVal) (k : String) (d : PyVal) : Except String PyVal :=
  match v with
  | .dict es => .ok ((dictLookup es k).getD d)
  | _ => .error "AttributeError"

/-- Is `needle` a contiguous substring of `hay` (Python `needle in hay`
for strings)? -/
def strContainsB (hay needle : String) : Bool :=
  hay.toList.tails.any (fun t => needle.toList.isPrefixOf t)

/-- Python `==` between a value and a plain string: true exactly for a
(possibly attributed) string with the same characters; a list or dict is
never equal to a string. -/
def pyEqStr (v : PyVal) (s : String) : Bool :=
  match v with
  | .str t _ => t == s
  | _ => false

/-- Python `k in v`: key membership for a dict, element membership for a
list, substring test for a string. -/
def pyContains (v : PyVal) (k : String) : Bool :=
  match v with
  | .dict es => es.any (fun e => e.1 == k)
  | .list xs => xs.any (fun x => pyEqStr x k)
  | .str s _ => strContainsB s k

/-- Python `len`. -/
def pyLen (v : PyVal) : Nat :=
  match v with
  | .str s _ => s.length
  | .list xs => xs.length
  | .dict es => es.length

/-- Python truthiness of these shapes: nonempty. -/
def pyTruthy (v : PyVal) : Bool :=
  pyLen v != 0

/-- Python `v[k]` for a string key `k`: dict lookup (`KeyError` when the
key is missing); on a string or list, a string index raises `TypeError`. -/
def pyIndexKey (v : PyVal) (k : String) : Except String PyVal :=
  match v with
  | .dict es =>
    match dictLookup es k with
    | some x => .ok x
    | none => .error "KeyError"
  | _ => .error "TypeError"

/-- Python `v[0]`: first character of a string, first element of a list
(`IndexError` when empty), `KeyError` on a dict (its keys are strings,
never the integer 0). -/
def pyIndex0 (v : PyVal) : Except String PyVal :=
  match v with
  | .str s _ =>
    match s.toList with
    | [] => .error "IndexError"
    | c :: _ => .ok (.str c.toString [])
  | .list xs =>
    match xs with
    | [] => .error "IndexError"
    | x :: _ => .ok x
  | .dict _ => .error "KeyError"

/-- Python iteration: characters of a string, elements of a list, keys of
a dict. -/
def pyIter (v : PyVal) : List PyVal :=
  match v with
  | .str s _ => s.toList.map (fun c => .str c.toString [])
  | .list xs => xs
  | .dict es => es.map (fun e => .str e.1 [])

mutual

/-- Python `str`.  On strings this is the identity (the only case the
script's data ever exercises through the claims); on lists and dicts we
render the elements recursively, a total stand-in for CPython's repr-based
formatting. -/
def pyStr : PyVal → String
  | .str s _ => s
  | .list xs => "[" ++ pyStrList xs ++ "]"
  | .dict es => "\x7b" ++ pyStrDict es ++ "\x7d"

/-- Comma-separated rendering of list elements. -/
def pyStrList : List PyVal → String
  | [] => ""
  | [x] => pyStr x
  | x :: xs => pyStr x ++ ", " ++ pyStrList xs

/-- Comma-separated rendering of dict entries. -/
def pyStrDict : List (String × PyVal) → String
  | [] => ""
  | [e] => e.1 ++ ": " ++ pyStr e.2
  | e :: es => e.1 ++ ": " ++ pyStr e.2 ++ ", " ++ pyStrDict es

end

/-- The `.attributes` mapping of a Biopython element.  Strings carry
theirs; for lists and dicts no claim inspects attributes, and plain
values (e.g. characters obtained by iterating a string) have none. -/
def pyAttrs (v : PyVal) : List (String × String) :=
  match v with
  | .str _ a => a
  | _ => []

/-- Is the value a (possibly attributed) string? -/
def isStrB (v : PyVal) : Bool :=
  match v with
  | .str _ _ => true
  | _ => false

/-- Python string join with separator `sep`: raises `TypeError` unless
every element is a string. -/
def pyJoin (sep : String) (xs : List PyVal) : Except String String :=
  if xs.all isStrB then .ok (String.intercalate sep (xs.map pyStr))
  else .error "TypeError"

/-!
## The Extractor (`extract_data`)

One flat row per paper.  The Python builds eleven parallel column lists
and wraps them in a DataFrame; we build the rows directly, which yields
the same table.  `PMID`, `Abstract`, `Authors`, `Keywords` and `DOI` are
always strings in the source (built with `str`, f-strings or `join`);
`Title`, `Journal` and `Language` are appended as the raw values found.
The date cells are `Option PyVal` so that `standardize_dates` can later
replace the `"No Data"` sentinel with the missing-value marker `NaN`,
modelled as `none`.
-/

/-- One row of the resulting DataFrame. -/
structure Row where
  PMID : String
  Title : PyVal
  Abstract : String
  Journal : PyVal
  Language : PyVal
  Year : Option PyVal
  Month : Option PyVal
  Day : Option PyVal
  Authors : String
  Keywords : String
  DOI : String

/-- The whole try-block of the abstract extraction: index
`AbstractText`, then join the segments with a single space when the value
is a list, else stringify it. -/
def tryAbstract (s : PyVal) : Except String String :=
  match pyIndexKey s "AbstractText" with
  | .error e => .error e
  | .ok t =>
    match t with
    | .list xs => .ok (String.intercalate " " (xs.map pyStr))
    | v => .ok (pyStr v)

/-- Abstract policy: default `"No Abstract"`; when the section is truthy
and mentions `AbstractText`, run the try-block, and on any exception fall
back to the sentinel (`except: pass`). -/
def extract_abstract (article : PyVal) : Except String String :=
  match pyGet article "Abstract" (.dict []) with
  | .error e => .error e
  | .ok s =>
    if pyTruthy s && pyContains s "AbstractText" then
      match tryAbstract s with
      | .ok a => .ok a
      | .error _ => .ok "No Abstract"
    else .ok "No Abstract"

/-- Language policy: first entry of the `Language` list when present and
nonempty, else `"Unknown"`. -/
def extract_language (article : PyVal) : Except String PyVal :=
  if pyContains article "Language" then
    match pyIndexKey article "Language" with
    | .error e => .error e
    | .ok lv =>
      if 0 < pyLen lv then pyIndex0 lv
      else .ok (.str "Unknown" [])
  else .ok (.str "Unknown" [])

/-- One author entry: prefer `"LastName ForeName"`, else the raw
`LastName` value, else the raw `CollectiveName` value, else nothing. -/
def authorEntry (a : PyVal) : Except String (Option PyVal) :=
  if pyContains a "LastName" && pyContains a "ForeName" then
    match pyIndexKey a "LastName" with
    | .error e => .error e
    | .ok l =>
      match pyIndexKey a "ForeName" with
      | .error e => .error e
      | .ok f => .ok (some (.str (pyStr l ++ " " ++ pyStr f) []))
  else if pyContains a "LastName" then
    match pyIndexKey a "LastName" with
    | .error e => .error e
    | .ok l => .ok (some l)
  else if pyContains a "CollectiveName" then
    match pyIndexKey a "CollectiveName" with
    | .error e => .error e
    | .ok c => .ok (some c)
  else .ok none

/-- The author loop: entries that produce a name contribute it, the rest
contribute nothing. -/
def collectAuthors : List PyVal → Except String (List PyVal)
  | [] => .ok []
  | a :: rest =>
    match authorEntry a with
    | .error e => .error e
    | .ok entry =>
      match collectAuthors rest with
      | .error e => .error e
      | .ok more => .ok (match entry with | some v => v :: more | none => more)

/-- Authors policy: collect the usable names and join them with `"; "`,
or emit the sentinel when no entry contributed. -/
def extract_authors (article : PyVal) : Except String String :=
  match pyGet article "AuthorList" (.list []) with
  | .error e => .error e
  | .ok al =>
    match (if pyTruthy al then collectAuthors (pyIter al)
           else Except.ok []) with
    | .error e => .error e
    | .ok names =>
      if names.isEmpty then .ok "No Authors" else pyJoin "; " names

/-- The guarded body of the keyword extraction: members of the first
keyword group, stringified, when the list is truthy (the redundant
`len > 0` test mirrors the source); else no keywords. -/
def keywordGroup (kl : PyVal) : Except String (List String) :=
  if pyTruthy kl && decide (0 < pyLen kl) then
    match pyIndex0 kl with
    | .error e => .error e
    | .ok k0 => .ok ((pyIter k0).map pyStr)
  else .ok []

/-- Keywords policy: stringify the members of the first keyword group
and join with `"; "`, or the sentinel when there are none. -/
def extract_keywords (citation : PyVal) : Except String String :=
  match pyGet citation "KeywordList" (.list []) with
  | .error e => .error e
  | .ok kl =>
    match keywordGroup kl with
    | .error e => .error e
    | .ok keywords =>
      .ok (if keywords.isEmpty then "No Keywords"
           else String.intercalate "; " keywords)

/-- The DOI loop: first article id whose `IdType` attribute is `doi`,
stringified; else the sentinel. -/
def findDoi (items : List PyVal) : String :=
  match items.find? (fun it => (pyAttrs it).lookup "IdType" == some "doi") with
  | some it => pyStr it
  | none => "No DOI"

/-- DOI policy: scan `PubmedData.ArticleIdList` when truthy. -/
def extract_doi (paper : PyVal) : Except String String :=
  match pyGet paper "PubmedData" (.dict []) with
  | .error e => .error e
  | .ok pmd =>
    match pyGet pmd "ArticleIdList" (.list []) with
    | .error e => .error e
    | .ok ail => .ok (if pyTruthy ail then findDoi (pyIter ail) else "No DOI")

/-- One iteration of the extraction loop, in source order.  Every `.get`
on a value that turns out not to be a dict raises, exactly as the Python
does; only the abstract's try-block swallows its exception. -/
def extract_record (paper : PyVal) : Except String Row :=
  match pyGet paper "MedlineCitation" (.dict []) with
  | .error e => .error e
  | .ok citation =>
  match pyGet citation "Article" (.dict []) with
  | .error e => .error e
  | .ok article =>
  match pyGet citation "PMID" (.str "No PMID" []) with
  | .error e => .error e
  | .ok pmid =>
  match pyGet article "ArticleTitle" (.str "No Title" []) with
  | .error e => .error e
  | .ok title =>
  match extract_abstract article with
  | .error e => .error e
  | .ok abstract =>
  match pyGet article "Journal" (.dict []) with
  | .error e => .error e
  | .ok jrn =>
  match pyGet jrn "Title" (.str "No Journal" []) with
  | .error e => .error e
  | .ok journal =>
  match extract_language article with
  | .error e => .error e
  | .ok language =>
  match pyGet article "Journal" (.dict []) with
  | .error e => .error e
  | .ok jrn2 =>
  match pyGet jrn2 "JournalIssue" (.dict []) with
  | .error e => .error e
  | .ok journal_issue =>
  match pyGet journal_issue "PubDate" (.dict []) with
  | .error e => .error e
  | .ok pub_date =>
  match pyGet pub_date "Year" (.str "No Data" []) with
  | .error e => .error e
  | .ok year =>
  match pyGet pub_date "Month" (.str "No Data" []) with
  | .error e => .error e
  | .ok month =>
  match pyGet pub_date "Day" (.str "No Data" []) with
  | .error e => .error e
  | .ok day =>
  match extract_authors article with
  | .error e => .error e
  | .ok authors =>
  match extract_keywords citation with
  | .error e => .error e
  | .ok keywords =>
  match extract_doi paper with
  | .error e => .error e
  | .ok doi =>
    .ok { PMID := pyStr pmid, Title := title, Abstract := abstract,
          Journal := journal, Language := language, Year := some year,
          Month := some month, Day := some day, Authors := authors,
          Keywords := keywords, DOI := doi }

/-- `extract_data`: the loop over all papers; an exception in any
iteration propagates out of the function. -/
def extract_data (papers : List PyVal) : Except String (List Row) :=
  match papers with
  | [] => .ok []
  | p :: rest =>
    match extract_record p with
    | .error e => .error e
    | .ok r =>
      match extract_data rest with
      | .error e => .error e
      | .ok rs => .ok (r :: rs)

/-!
## The Normalizer (`standardize_dates`)

`df['Month'].replace(old, new)` compares each cell of the column with
`old` by Python equality and substitutes `new` on a match; `np.nan` (the
missing-value marker) is modelled as `none`.  The source assigns the
replaced columns back into the same DataFrame (`df['Month'] = ...`) and
returns it, so the call mutates its argument; `standardize_dates` below
is the column transformation, and `standardize_dates_call` models the
call's effect on the caller (post-state of the argument, return value) —
in the source both are the one mutated DataFrame.
-/

/-- The fixed 12-entry month mapping, in source order. -/
def month_mapping : List (String × String) :=
  [("Jan", "01"), ("Feb", "02"), ("Mar", "03"), ("Apr", "04"),
   ("May", "05"), ("Jun", "06"), ("Jul", "07"), ("Aug", "08"),
   ("Sep", "09"), ("Oct", "10"), ("Nov", "11"), ("Dec", "12")]

/-- `Series.replace(target, repl)` on one cell: substitute on equality
with the target string, keep the cell otherwise (a `NaN` cell never
equals a string). -/
def replaceCell (c : Option PyVal) (target : String) (repl : Option PyVal) :
    Option PyVal :=
  match c with
  | some v => if pyEqStr v target then repl else c
  | none => none

/-- The twelve month replacements applied in order to one Month cell. -/
def monthReplace (c : Option PyVal) : Option PyVal :=
  month_mapping.foldl (fun c p => replaceCell c p.1 (some (.str p.2 []))) c

/-- The column transformation of `standardize_dates`: month names to
numbers on the Month column, then `"No Data"` to `NaN` on Month, Day and
Year. -/
def standardize_dates (df : List Row) : List Row :=
  df.map (fun r =>
    { r with
      Month := replaceCell (monthReplace r.Month) "No Data" none,
      Day := replaceCell r.Day "No Data" none,
      Year := replaceCell r.Year "No Data" none })

/-- The effect of calling `standardize_dates(df)`: pandas column
assignment updates the passed DataFrame in place and the function returns
that same object, so the argument's post-state and the return value
coincide (both carry the transformed columns). -/
def standardize_dates_call (df : List Row) : List Row × List Row :=
  (standardize_dates df, standardize_dates df)

/-!
## The Locator (`search`)

The remote search endpoint is an opaque collaborator: we model it as a
function from the request parameters to the parsed response
(`Entrez.read` of the `esearch` handle).  `search` builds exactly one
request and returns the parsed response object whole — note, not the
`IdList` inside it (its caller `main` reads `results['IdList']`).
-/

/-- The parameters the source passes to `Entrez.esearch`. -/
structure ESearchParams where
  db : String
  sort : String
  retmax : String
  retmode : String
  term : String

/-- `search(query, max_results)`: one request, response returned as
parsed. -/
def search (service : ESearchParams → PyVal) (query : String)
    (max_results : Nat := 10) : PyVal :=
  service { db := "pubmed", sort := "relevance",
            retmax := toString max_results, retmode := "xml", term := query }

/-!
## The Fetcher (`fetch_details`)

The fetch endpoint is again an opaque collaborator: a function from the
comma-joined id string and the attempt number (the value of `tries` at
call time, distinguishing retries) to either the parsed response or a
raised exception.  Everything inside the `try` block — the fetch, the
parse, and the harvesting of `results['PubmedArticle']` — counts as one
attempt; `processResults` is the harvesting step, whose indexing can
itself raise and be caught.  The observable side effects (network
attempts, printed diagnostics, sleeps) are recorded as a trace of
events; sleep durations are in seconds.
-/

/-- An observable side effect of the fetch loop. -/
inductive FetchEvent where
  | attempt (ids : String) (tries : Nat)
  | msg (text : String)
  | sleep (seconds : ℚ)
deriving DecidableEq

/-- The diagnostic printed on a failed attempt. -/
def errText (n : Nat) (e : String) : String :=
  "Error fetching details (attempt " ++ toString n ++ "/3): " ++ e

/-- The diagnostic printed before a backoff sleep. -/
def waitText (t : Nat) : String :=
  "Waiting " ++ toString t ++ " seconds before retrying..."

/-- The diagnostic printed when a chunk is abandoned. -/
def failText (i : Nat) : String :=
  "Failed to fetch details for chunk " ++ toString i

/-- Harvest a parsed response: the records under `PubmedArticle` when
the key is present, zero records otherwise. -/
def processResults (results : PyVal) : Except String (List PyVal) :=
  if pyContains results "PubmedArticle" then
    match pyIndexKey results "PubmedArticle" with
    | .error e => .error e
    | .ok v => .ok (pyIter v)
  else .ok []

/-- One full attempt: fetch-and-parse (the service), then harvest. -/
def attemptFetch (service : String → Nat → Except String PyVal)
    (ids : String) (tries : Nat) : Except String (List PyVal) :=
  match service ids tries with
  | .error e => .error e
  | .ok results => processResults results

/-- The retry loop for one chunk (`while tries < max_tries` with
`max_tries = 3`): `start` is the chunk's element offset `i`, used only in
the abandonment diagnostic; the fuel argument is the number of loop
iterations still permitted, `3 - tries`.  On failure the source
increments `tries`, prints, and either backs off `2 ** tries` seconds and
retries or abandons the chunk with no records. -/
def fetchChunkGo (service : String → Nat → Except String PyVal)
    (ids : String) (start : Nat) : Nat → Nat → List FetchEvent × List PyVal
  | _, 0 => ([], [])
  | tries, fuel + 1 =>
    match attemptFetch service ids tries with
    | .ok recs => ([.attempt ids tries], recs)
    | .error e =>
      if tries + 1 < 3 then
        let rest := fetchChunkGo service ids start (tries + 1) fuel
        (.attempt ids tries :: .msg (errText (tries + 1) e) ::
           .msg (waitText (2 ^ (tries + 1))) ::
           .sleep ((2 ^ (tries + 1) : Nat) : ℚ) :: rest.1,
         rest.2)
      else
        ([.attempt ids tries, .msg (errText (tries + 1) e),
          .msg (failText start)], [])

/-- The chunk loop body applied to the chunks in order: each chunk's ids
are comma-joined, the retry loop runs, and a fixed 0.5 s courtesy sleep
follows every chunk.  Records accumulate in chunk order. -/
def processChunks (service : String → Nat → Except String PyVal) :
    List (Nat × List String) → List FetchEvent × List PyVal
  | [] => ([], [])
  | (i, chunk) :: rest =>
    let r := fetchChunkGo service (String.intercalate "," chunk) i 0 3
    let more := processChunks service rest
    (r.1 ++ FetchEvent.sleep (1 / 2) :: more.1, r.2 ++ more.2)

/-- The slicing loop `for i in range(0, len(id_list), chunk_size)` with
`chunk = id_list[i:i+chunk_size]`, paired with its offset `i`.  (For
`chunk_size = 0` the Python `range` raises; the claims all assume a
chunk size of at least 1.) -/
def chunksFrom (c : Nat) : Nat → List String → List (Nat × List String)
  | _, [] => []
  | i, x :: xs =>
    if _h : c = 0 then []
    else (i, (x :: xs).take c) :: chunksFrom c (i + c) ((x :: xs).drop c)
termination_by _ l => l.length
decreasing_by
  simp only [List.length_drop, List.length_cons]
  omega

/-- The chunks themselves, in order. -/
def chunksOf (c : Nat) (l : List String) : List (List String) :=
  (chunksFrom c 0 l).map Prod.snd

/-- `fetch_details(id_list, chunk_size)`: trace of observable events and
the accumulated records. -/
def fetch_details (service : String → Nat → Except String PyVal)
    (id_list : List String) (chunk_size : Nat := 100) :
    List FetchEvent × List PyVal :=
  processChunks service (chunksFrom chunk_size 0 id_list)

/-!
## Helper lemmas about cell replacement
-/

/-- One replacement step either keeps the cell or substitutes the
replacement. -/
theorem replaceCell_eq_or (c : Option PyVal) (t : String) (r : Option PyVal) :
    replaceCell c t r = c ∨ replaceCell c t r = r := by
  cases c with
  | none => exact Or.inl rfl
  | some v =>
    cases h : pyEqStr v t
    · exact Or.inl (by simp [replaceCell, h])
    · exact Or.inr (by simp [replaceCell, h])

/-- A fold of replacement steps either keeps the cell or produces one of
the steps' replacement values. -/
theorem foldl_replaceCell_cases (ps : List (String × String))
    (c : Option PyVal) :
    ps.foldl (fun c p => replaceCell c p.1 (some (.str p.2 []))) c = c ∨
      ∃ p ∈ ps,
        ps.foldl (fun c p => replaceCell c p.1 (some (.str p.2 []))) c =
          some (.str p.2 []) := by
  induction ps generalizing c with
  | nil => exact Or.inl rfl
  | cons p ps ih =>
    simp only [List.foldl_cons]
    rcases ih (replaceCell c p.1 (some (.str p.2 []))) with h | ⟨q, hq, h⟩
    · rcases replaceCell_eq_or c p.1 (some (.str p.2 [])) with h2 | h2
      · exact Or.inl (by rw [h, h2])
      · exact Or.inr ⟨p, List.mem_cons_self _ _, by rw [h, h2]⟩
    · exact Or.inr ⟨q, List.mem_cons_of_mem _ hq, h⟩

/-- A cell that no step of the fold touches is kept. -/
theorem foldl_replaceCell_fixed (ps : List (String × String))
    (c : Option PyVal)
    (h : ∀ p ∈ ps, replaceCell c p.1 (some (.str p.2 [])) = c) :
    ps.foldl (fun c p => replaceCell c p.1 (some (.str p.2 []))) c = c := by
  induction ps with
  | nil => rfl
  | cons p ps ih =>
    simp only [List.foldl_cons]
    rw [h p (List.mem_cons_self _ _)]
    exact ih (fun q hq => h q (List.mem_cons_of_mem _ hq))

/-- The replacement values of the month mapping are inert: no mapped
month number is itself a month name, nor the `"No Data"` sentinel. -/
theorem month_mapping_inert :
    ∀ p ∈ month_mapping,
      (∀ q ∈ month_mapping, pyEqStr (.str p.2 []) q.1 = false) ∧
        pyEqStr (.str p.2 []) "No Data" = false := by
  decide

/-- `monthReplace` leaves a `NaN` cell alone. -/
theorem monthReplace_none : monthReplace none = none := rfl

/-- A month number produced by the mapping is a fixed point of
`monthReplace`. -/
theorem monthReplace_num_fixed (p : String × String) (hp : p ∈ month_mapping) :
    monthReplace (some (.str p.2 [])) = some (.str p.2 []) := by
  apply foldl_replaceCell_fixed
  intro q hq
  simp [replaceCell, ((month_mapping_inert p hp).1 q hq)]

/-- A cell holding a three-letter month abbreviation is mapped to the
corresponding zero-padded month number (its attributes do not matter to
the replacement). -/
theorem monthReplace_abbrev (p : String × String) (hp : p ∈ month_mapping)
    (a : List (String × String)) :
    monthReplace (some (.str p.1 a)) = some (.str p.2 []) := by
  fin_cases hp <;> rfl

/-- Idempotence of the full Month-cell transformation. -/
theorem monthCell_idem (c : Option PyVal) :
    replaceCell (monthReplace (replaceCell (monthReplace c) "No Data" none))
        "No Data" none =
      replaceCell (monthReplace c) "No Data" none := by
  rcases foldl_replaceCell_cases month_mapping c with h | ⟨p, hp, h⟩
  · have h' : monthReplace c = c := h
    rw [h']
    cases c with
    | none => rfl
    | some v =>
      cases hv : pyEqStr v "No Data"
      · have hkeep : replaceCell (some v) "No Data" none = some v := by
          simp [replaceCell, hv]
        rw [hkeep, h', hkeep]
      · have hdrop : replaceCell (some v) "No Data" none = none := by
          simp [replaceCell, hv]
        rw [hdrop, monthReplace_none]
        rfl
  · have h' : monthReplace c = some (.str p.2 []) := h
    rw [h']
    have hkeep : replaceCell (some (.str p.2 [])) "No Data" none =
        some (.str p.2 []) := by
      simp [replaceCell, (month_mapping_inert p hp).2]
    rw [hkeep, monthReplace_num_fixed p hp, hkeep]

/-- Idempotence of the Day/Year cell transformation. -/
theorem noDataCell_idem (c : Option PyVal) :
    replaceCell (replaceCell c "No Data" none) "No Data" none =
      replaceCell c "No Data" none := by
  cases c with
  | none => rfl
  | some v =>
    cases hv : pyEqStr v "No Data"
    · simp [replaceCell, hv]
    · simp [replaceCell, hv]

/-- C7 — `standardizeDates` is idempotent: applying it twice to any
Table equals applying it once (already-numeric months are untouched by
the month mapping and the missing-value marker is stable). -/
theorem standardize_dates_idempotent (df : List Row) :
    standardize_dates (standardize_dates df) = standardize_dates df := by
  simp only [standardize_dates, List.map_map]
  congr 1
  funext r
  simp [Function.comp, monthCell_idem, noDataCell_idem]

/-- C8 — for every Table, `standardizeDates` maps each three-letter
month abbreviation in the Month column to its zero-padded two-digit
number via the fixed 12-entry mapping, and maps the sentinel `"No Data"`
in the Year, Month and Day columns to the missing-value marker `NaN`
(modelled as `none`), which is distinct from the string `"No Data"`. -/
theorem standardize_dates_month_mapping (df : List Row) (i : Nat)
    (h : i < df.length) :
    (∀ p ∈ month_mapping, ∀ a,
        (df.get ⟨i, h⟩).Month = some (PyVal.str p.1 a) →
        ((standardize_dates df).get
            ⟨i, by simpa [standardize_dates] using h⟩).Month =
          some (PyVal.str p.2 [])) ∧
    (∀ a, (df.get ⟨i, h⟩).Month = some (PyVal.str "No Data" a) →
        ((standardize_dates df).get
            ⟨i, by simpa [standardize_dates] using h⟩).Month = none) ∧
    (∀ a, (df.get ⟨i, h⟩).Year = some (PyVal.str "No Data" a) →
        ((standardize_dates df).get
            ⟨i, by simpa [standardize_dates] using h⟩).Year = none) ∧
    (∀ a, (df.get ⟨i, h⟩).Day = some (PyVal.str "No Data" a) →
        ((standardize_dates df).get
            ⟨i, by simpa [standardize_dates] using h⟩).Day = none) ∧
    (none : Option PyVal) ≠ some (PyVal.str "No Data" []) := by
  refine ⟨?_, ?_, ?_, ?_, by simp⟩
  · intro p hp a hm
    simp only [standardize_dates, List.get_eq_getElem, List.getElem_map]
    simp only [List.get_eq_getElem] at hm
    rw [hm, monthReplace_abbrev p hp a]
    simp [replaceCell, (month_mapping_inert p hp).2]
  · intro a hm
    simp only [standardize_dates, List.get_eq_getElem, List.getElem_map]
    simp only [List.get_eq_getElem] at hm
    rw [hm]
    have hfix : monthReplace (some (PyVal.str "No Data" a)) =
        some (PyVal.str "No Data" a) := by
      apply foldl_replaceCell_fixed
      intro q hq
      fin_cases hq <;> rfl
    rw [hfix]
    simp [replaceCell, pyEqStr]
  · intro a hm
    simp only [standardize_dates, List.get_eq_getElem, List.getElem_map]
    simp only [List.get_eq_getElem] at hm
    rw [hm]
    simp [replaceCell, pyEqStr]
  · intro a hm
    simp only [standardize_dates, List.get_eq_getElem, List.getElem_map]
    simp only [List.get_eq_getElem] at hm
    rw [hm]
    simp [replaceCell, pyEqStr]

/-- A concrete row, with a `"Mar"` month, used to exhibit behaviours on
a concrete Table. -/
def sampleRow : Row :=
  { PMID := "12345", Title := .str "T" [], Abstract := "A",
    Journal := .str "J" [], Language := .str "eng" [],
    Year := some (.str "2020" []), Month := some (.str "Mar" []),
    Day := some (.str "05" []), Authors := "Smith J",
    Keywords := "kw", DOI := "10.1/x" }

/-- Witness for `standardize_dates_month_mapping` at a concrete Table. -/
theorem standardize_dates_month_mapping_witness :
    ((standardize_dates [sampleRow]).get
        ⟨0, by simp [standardize_dates]⟩).Month =
      some (PyVal.str "03" []) :=
  (standardize_dates_month_mapping [sampleRow] 0 (by decide)).1
    ("Mar", "03") (by decide) [] rfl

/-- C3 counterexample — `standardize_dates` does not leave the Table it
was given unchanged: pandas column assignment mutates the argument, so
after the call the input DataFrame (the first component of
`standardize_dates_call`) differs from its prior value. -/
theorem standardize_dates_mutates_input :
    (standardize_dates_call [sampleRow]).1 ≠ [sampleRow] := by
  intro h
  have h2 := congrArg (fun l => (l.headD sampleRow).Month.map pyStr) h
  revert h2
  decide

/-- C3 amended — `standardizeDates` standardizes in place: the returned
Table is the argument's post-state (one and the same mutated DataFrame),
and the mutation touches only the Year, Month and Day columns: the row
count and all other columns are unchanged. -/
theorem standardize_dates_frame (df : List Row) :
    (standardize_dates_call df).2 = (standardize_dates_call df).1 ∧
    (standardize_dates df).length = df.length ∧
    (standardize_dates df).map Row.PMID = df.map Row.PMID ∧
    (standardize_dates df).map Row.Title = df.map Row.Title ∧
    (standardize_dates df).map Row.Abstract = df.map Row.Abstract ∧
    (standardize_dates df).map Row.Journal = df.map Row.Journal ∧
    (standardize_dates df).map Row.Language = df.map Row.Language ∧
    (standardize_dates df).map Row.Authors = df.map Row.Authors ∧
    (standardize_dates df).map Row.Keywords = df.map Row.Keywords ∧
    (standardize_dates df).map Row.DOI = df.map Row.DOI := by
  refine ⟨rfl, by simp [standardize_dates], ?_, ?_, ?_, ?_, ?_, ?_, ?_, ?_⟩ <;>
    · simp only [standardize_dates, List.map_map]
      rfl

/-- A concrete parsed search response: an `esearch` result holds more
than the identifier list (counts, translations, ...). -/
def sampleSearchResponse : PyVal :=
  .dict [("Count", .str "1" []), ("IdList", .list [.str "12345" []])]

/-- A search endpoint that answers every request with
`sampleSearchResponse`. -/
def sampleSearchService : ESearchParams → PyVal :=
  fun _ => sampleSearchResponse

/-- C2 — `search` does not return the identifier list found in the
response: it returns the whole parsed response object (from which its
caller later reads `IdList`), contradicting the contract
`search(query, maxResults) -> sequence<Identifier>` and the function's
own docstring ("Returns a list of PubMed IDs"). -/
theorem search_returns_full_response :
    search sampleSearchService "cancer" 10 = sampleSearchResponse ∧
    pyIndexKey (search sampleSearchService "cancer" 10) "IdList" =
      .ok (.list [.str "12345" []]) ∧
    search sampleSearchService "cancer" 10 ≠ .list [.str "12345" []] :=
  ⟨rfl, rfl, fun h => PyVal.noConfusion h⟩

/-!
## Helper lemmas about the Fetcher
-/

/-- Concatenating the chunks in order restores the identifier list. -/
theorem chunksFrom_join_aux (c : Nat) (hc : c ≠ 0) :
    ∀ (n : Nat) (l : List String), l.length ≤ n → ∀ i,
      ((chunksFrom c i l).map Prod.snd).flatten = l := by
  intro n
  induction n with
  | zero =>
    intro l hl i
    have : l = [] := List.eq_nil_of_length_eq_zero (Nat.le_zero.mp hl)
    subst this
    simp [chunksFrom]
  | succ n ih =>
    intro l hl i
    cases l with
    | nil => simp [chunksFrom]
    | cons x xs =>
      rw [chunksFrom]
      simp only [hc, dite_false, List.map_cons, List.flatten_cons]
      rw [ih ((x :: xs).drop c)
        (by simp only [List.length_drop, List.length_cons] at hl ⊢; omega)
        (i + c)]
      exact List.take_append_drop c (x :: xs)

/-- The number of chunks is `ceil(N / C)`. -/
theorem chunksFrom_length_aux (c : Nat) (hc : c ≠ 0) :
    ∀ (n : Nat) (l : List String), l.length ≤ n → ∀ i,
      (chunksFrom c i l).length = (l.length + c - 1) / c := by
  intro n
  induction n with
  | zero =>
    intro l hl i
    have : l = [] := List.eq_nil_of_length_eq_zero (Nat.le_zero.mp hl)
    subst this
    simp [chunksFrom, Nat.div_eq_of_lt (by omega : c - 1 < c)]
  | succ n ih =>
    intro l hl i
    cases l with
    | nil => simp [chunksFrom, Nat.div_eq_of_lt (by omega : c - 1 < c)]
    | cons x xs =>
      rw [chunksFrom]
      simp only [hc, dite_false, List.length_cons]
      rw [ih ((x :: xs).drop c)
        (by simp only [List.length_drop, List.length_cons] at hl ⊢; omega)
        (i + c)]
      simp only [List.length_drop, List.length_cons]
      have hm : 1 ≤ xs.length + 1 := by omega
      rw [show xs.length + 1 + c - 1 = (xs.length + 1 - 1) + c by omega,
        Nat.add_div_right _ (by omega : 0 < c)]
      rcases le_or_lt (xs.length + 1) c with hmc | hmc
      · rw [show xs.length + 1 - c = 0 by omega]
        simp [Nat.div_eq_of_lt (by omega : c - 1 < c),
          Nat.div_eq_of_lt (by omega : xs.length < c)]
      · rw [show xs.length + 1 - c + c - 1 = xs.length + 1 - 1 by omega]

/-- Every chunk holds at most `C` identifiers. -/
theorem chunksFrom_chunk_le_aux (c : Nat) :
    ∀ (n : Nat) (l : List String), l.length ≤ n → ∀ i,
      ∀ p ∈ chunksFrom c i l, p.2.length ≤ c := by
  intro n
  induction n with
  | zero =>
    intro l hl i p hp
    have : l = [] := List.eq_nil_of_length_eq_zero (Nat.le_zero.mp hl)
    subst this
    simp [chunksFrom] at hp
  | succ n ih =>
    intro l hl i p hp
    cases l with
    | nil => simp [chunksFrom] at hp
    | cons x xs =>
      rw [chunksFrom] at hp
      by_cases hc : c = 0
      · simp [hc] at hp
      · simp only [hc, dite_false, List.mem_cons] at hp
        rcases hp with rfl | hp
        · simp [List.length_take]
        · exact ih ((x :: xs).drop c)
            (by simp only [List.length_drop, List.length_cons] at hl ⊢; omega)
            (i + c) p hp

/-- `processChunks` is the in-order concatenation of the per-chunk
traces (each followed by the fixed half-second pacing sleep) and the
in-order concatenation of the per-chunk records. -/
theorem processChunks_eq (service : String → Nat → Except String PyVal) :
    ∀ pairs : List (Nat × List String),
      processChunks service pairs =
        ((pairs.map (fun p =>
            (fetchChunkGo service (String.intercalate "," p.2) p.1 0 3).1 ++
              [FetchEvent.sleep (1 / 2)])).flatten,
         (pairs.map (fun p =>
            (fetchChunkGo service (String.intercalate "," p.2) p.1 0 3).2)).flatten) := by
  intro pairs
  induction pairs with
  | nil => rfl
  | cons p ps ih =>
    cases p with
    | mk i ch => simp [processChunks, ih]

/-- C5 — for every chunk size `C ≥ 1` and identifier list, `fetchDetails`
partitions the identifiers into exactly `ceil(N / C)` consecutive chunks
of at most `C` identifiers each (their in-order concatenation is the
input), and processes the chunks strictly in input order one at a time:
its trace and its records are the in-order concatenations of the
per-chunk traces and records. -/
theorem fetch_details_chunking (service : String → Nat → Except String PyVal)
    (c : Nat) (hc : 1 ≤ c) (l : List String) :
    (chunksOf c l).length = (l.length + c - 1) / c ∧
    (chunksOf c l).flatten = l ∧
    (∀ ch ∈ chunksOf c l, ch.length ≤ c) ∧
    (fetch_details service l c).1 =
      ((chunksFrom c 0 l).map (fun p =>
          (fetchChunkGo service (String.intercalate "," p.2) p.1 0 3).1 ++
            [FetchEvent.sleep (1 / 2)])).flatten ∧
    (fetch_details service l c).2 =
      ((chunksFrom c 0 l).map (fun p =>
          (fetchChunkGo service (String.intercalate "," p.2) p.1 0 3).2)).flatten := by
  have hc0 : c ≠ 0 := by omega
  refine ⟨?_, ?_, ?_, ?_, ?_⟩
  · rw [chunksOf, List.length_map]
    exact chunksFrom_length_aux c hc0 l.length l le_rfl 0
  · exact chunksFrom_join_aux c hc0 l.length l le_rfl 0
  · intro ch hch
    rcases List.mem_map.mp hch with ⟨p, hp, rfl⟩
    exact chunksFrom_chunk_le_aux c l.length l le_rfl 0 p hp
  · rw [fetch_details, processChunks_eq]
  · rw [fetch_details, processChunks_eq]

/-- A fetch endpoint that is permanently down. -/
def noService : String → Nat → Except String PyVal :=
  fun _ _ => .error "down"

/-- Witness for `fetch_details_chunking` at a concrete input. -/
theorem fetch_details_chunking_witness :
    (chunksOf 2 ["a", "b", "c"]).length = 2 :=
  (fetch_details_chunking noService 2 (by decide) ["a", "b", "c"]).1

/-- C4 — a chunk whose fetch fails on every try is attempted exactly 3
times, with a 2-second sleep after the first failure and a 4-second sleep
after the second; after exhaustion a diagnostic is printed, the chunk
contributes no records, and processing continues with the next chunk (the
run is not aborted: the remaining chunks' trace and records follow
unchanged). -/
theorem fetch_details_retries_failing_chunk
    (service : String → Nat → Except String PyVal)
    (ch : List String) (start : Nat) (e : Nat → String)
    (h : ∀ n, n < 3 →
        service (String.intercalate "," ch) n = .error (e n)) :
    (fetchChunkGo service (String.intercalate "," ch) start 0 3 =
      ([.attempt (String.intercalate "," ch) 0, .msg (errText 1 (e 0)),
        .msg (waitText 2), .sleep 2,
        .attempt (String.intercalate "," ch) 1, .msg (errText 2 (e 1)),
        .msg (waitText 4), .sleep 4,
        .attempt (String.intercalate "," ch) 2, .msg (errText 3 (e 2)),
        .msg (failText start)], ([] : List PyVal))) ∧
    ∀ rest, processChunks service ((start, ch) :: rest) =
      ((fetchChunkGo service (String.intercalate "," ch) start 0 3).1 ++
         FetchEvent.sleep (1 / 2) :: (processChunks service rest).1,
       (processChunks service rest).2) := by
  have hmain : fetchChunkGo service (String.intercalate "," ch) start 0 3 =
      ([.attempt (String.intercalate "," ch) 0, .msg (errText 1 (e 0)),
        .msg (waitText 2), .sleep 2,
        .attempt (String.intercalate "," ch) 1, .msg (errText 2 (e 1)),
        .msg (waitText 4), .sleep 4,
        .attempt (String.intercalate "," ch) 2, .msg (errText 3 (e 2)),
        .msg (failText start)], ([] : List PyVal)) := by
    simp only [fetchChunkGo, attemptFetch, h 0 (by omega), h 1 (by omega),
      h 2 (by omega)]
    norm_num
  refine ⟨hmain, fun rest => ?_⟩
  simp [processChunks, hmain]

/-- Witness for `fetch_details_retries_failing_chunk` against a
permanently failing endpoint. -/
theorem fetch_details_retries_failing_chunk_witness :
    fetchChunkGo noService "1,2" 0 0 3 =
      ([.attempt "1,2" 0, .msg (errText 1 "down"), .msg (waitText 2),
        .sleep 2, .attempt "1,2" 1, .msg (errText 2 "down"),
        .msg (waitText 4), .sleep 4, .attempt "1,2" 2,
        .msg (errText 3 "down"), .msg (failText 0)], ([] : List PyVal)) :=
  (fetch_details_retries_failing_chunk noService ["1", "2"] 0
    (fun _ => "down") (fun _ _ => rfl)).1

/-- The records a chunk contributes are those of one successful attempt,
or none. -/
theorem fetchChunkGo_records (service : String → Nat → Except String PyVal)
    (ids : String) (start : Nat) :
    ∀ (fuel tries : Nat),
      (fetchChunkGo service ids start tries fuel).2 = [] ∨
      ∃ n, attemptFetch service ids n =
        .ok (fetchChunkGo service ids start tries fuel).2 := by
  intro fuel
  induction fuel with
  | zero => exact fun _ => Or.inl rfl
  | succ fuel ih =>
    intro tries
    rw [fetchChunkGo]
    cases ha : attemptFetch service ids tries with
    | ok recs => exact Or.inr ⟨tries, by simp [ha]⟩
    | error e =>
      by_cases h3 : tries + 1 < 3
      · simp only [h3, if_true]
        rcases ih (tries + 1) with h0 | ⟨n, hn⟩
        · exact Or.inl h0
        · exact Or.inr ⟨n, hn⟩
      · simp [h3]

/-- C6 amended — `fetchDetails` returns no more records than input
identifiers, for every pattern of per-chunk successes and failures,
provided each successful fetch response carries at most as many records
as its chunk has identifiers.  (The code does not enforce that bound
itself; see the counterexample.) -/
theorem fetch_details_record_bound
    (service : String → Nat → Except String PyVal)
    (l : List String) (c : Nat) (hc : 1 ≤ c)
    (hresp : ∀ p ∈ chunksFrom c 0 l, ∀ n recs,
        attemptFetch service (String.intercalate "," p.2) n = .ok recs →
        recs.length ≤ p.2.length) :
    (fetch_details service l c).2.length ≤ l.length := by
  have hrec : (fetch_details service l c).2 =
      ((chunksFrom c 0 l).map (fun p =>
        (fetchChunkGo service (String.intercalate "," p.2) p.1 0 3).2)).flatten := by
    rw [fetch_details, processChunks_eq]
  have hjoin := chunksFrom_join_aux c (by omega) l.length l le_rfl 0
  have hlen := congrArg List.length hjoin
  rw [List.length_flatten, List.map_map] at hlen
  rw [hrec, List.length_flatten, List.map_map]
  calc ((chunksFrom c 0 l).map (List.length ∘ fun p =>
          (fetchChunkGo service (String.intercalate "," p.2) p.1 0 3).2)).sum
      ≤ ((chunksFrom c 0 l).map (List.length ∘ Prod.snd)).sum := by
        apply List.sum_le_sum
        intro p hp
        rcases fetchChunkGo_records service (String.intercalate "," p.2) p.1
            3 0 with h0 | ⟨n, hn⟩
        · simp [Function.comp, h0]
        · exact hresp p hp n _ hn
    _ = l.length := hlen

/-- A fetch endpoint whose response carries two records however many ids
were requested. -/
def overfullService : String → Nat → Except String PyVal :=
  fun _ _ => .ok (.dict [("PubmedArticle", .list [.dict [], .dict []])])

/-- C6 counterexample — nothing in the code bounds the records found in a
response by the chunk's identifier count: a response carrying two records
for a single identifier makes `fetch_details` return 2 records for 1 id,
so the unconditional claim fails. -/
theorem fetch_details_can_exceed_id_count :
    ¬ ((fetch_details overfullService ["1"] 100).2.length ≤
        (["1"] : List String).length) := by
  have hch : chunksFrom 100 0 ["1"] = [(0, ["1"])] := by
    simp [chunksFrom]
  rw [fetch_details, hch]
  decide

/-- Witness for `fetch_details_record_bound` against a permanently
failing endpoint (a vacuously bounded response pattern). -/
theorem fetch_details_record_bound_witness :
    (fetch_details noService ["9", "8", "7"] 2).2.length ≤
      (["9", "8", "7"] : List String).length :=
  fetch_details_record_bound noService ["9", "8", "7"] 2 (by decide)
    (fun _ _ _ _ hcontr => Except.noConfusion hcontr)

/-!
## Helper lemmas about dictionary membership
-/

/-- A key that looks up to a value is contained in the dict. -/
theorem contains_of_lookup {es : List (String × PyVal)} {k : String}
    {v : PyVal} (h : dictLookup es k = some v) :
    pyContains (.dict es) k = true := by
  unfold dictLookup at h
  rcases Option.map_eq_some'.mp h with ⟨e, hfind, _⟩
  have hp := List.find?_some hfind
  have hm := List.mem_of_find?_eq_some hfind
  simp only [pyContains, List.any_eq_true]
  exact ⟨e, hm, hp⟩

/-- A key that looks up to nothing is not contained in the dict. -/
theorem not_contains_of_lookup_none {es : List (String × PyVal)}
    {k : String} (h : dictLookup es k = none) :
    pyContains (.dict es) k = false := by
  unfold dictLookup at h
  have hf := Option.map_eq_none'.mp h
  have hall := List.find?_eq_none.mp hf
  simp only [pyContains]
  rw [List.any_eq_false]
  exact hall

/-- Indexing a dict with a key that looks up to `v` yields `v`. -/
theorem pyIndexKey_dict_some {es : List (String × PyVal)} {k : String}
    {v : PyVal} (h : dictLookup es k = some v) :
    pyIndexKey (.dict es) k = .ok v := by
  simp [pyIndexKey, h]

/-- A dict with a successful lookup is nonempty, hence truthy. -/
theorem pyTruthy_of_lookup {es : List (String × PyVal)} {k : String}
    {v : PyVal} (h : dictLookup es k = some v) :
    pyTruthy (.dict es) = true := by
  cases es with
  | nil => simp [dictLookup] at h
  | cons e es => simp [pyTruthy, pyLen]

/-- C9 — the extracted Abstract equals: the segments joined with a
single space when `AbstractText` is a list; the value stringified when it
is a single value; and the sentinel `"No Abstract"` when the field is
absent or when the extraction throws (e.g. the Abstract section is a
string: the `in` test may pass but indexing raises, and the error is
swallowed, never surfacing as an exception of the extractor). -/
theorem extract_abstract_policy (aes : List (String × PyVal)) :
    (∀ ses xs, dictLookup aes "Abstract" = some (.dict ses) →
        dictLookup ses "AbstractText" = some (.list xs) →
        extract_abstract (.dict aes) =
          .ok (String.intercalate " " (xs.map pyStr))) ∧
    (∀ ses v, dictLookup aes "Abstract" = some (.dict ses) →
        dictLookup ses "AbstractText" = some v → (∀ xs, v ≠ .list xs) →
        extract_abstract (.dict aes) = .ok (pyStr v)) ∧
    (dictLookup aes "Abstract" = none →
        extract_abstract (.dict aes) = .ok "No Abstract") ∧
    (∀ ses, dictLookup aes "Abstract" = some (.dict ses) →
        dictLookup ses "AbstractText" = none →
        extract_abstract (.dict aes) = .ok "No Abstract") ∧
    (∀ s a, dictLookup aes "Abstract" = some (.str s a) →
        extract_abstract (.dict aes) = .ok "No Abstract") := by
  refine ⟨?_, ?_, ?_, ?_, ?_⟩
  · intro ses xs hA hT
    simp [extract_abstract, pyGet, hA, pyTruthy_of_lookup hT,
      contains_of_lookup hT, tryAbstract, pyIndexKey_dict_some hT]
  · intro ses v hA hT hvl
    have hbase : extract_abstract (.dict aes) =
        match tryAbstract (.dict ses) with
        | .ok a => .ok a
        | .error _ => .ok "No Abstract" := by
      simp [extract_abstract, pyGet, hA, pyTruthy_of_lookup hT,
        contains_of_lookup hT]
    rw [hbase, tryAbstract, pyIndexKey_dict_some hT]
    cases v with
    | str s a => rfl
    | list xs => exact absurd rfl (hvl xs)
    | dict es => rfl
  · intro hA
    simp [extract_abstract, pyGet, hA, pyTruthy, pyLen]
  · intro ses hA hT
    simp [extract_abstract, pyGet, hA, not_contains_of_lookup_none hT]
  · intro s a hA
    have hbase : pyGet (.dict aes) "Abstract" (.dict []) =
        .ok (.str s a) := by simp [pyGet, hA]
    rw [extract_abstract, hbase]
    simp [tryAbstract, pyIndexKey]

/-- Witness for `extract_abstract_policy`: the two-segment scenario. -/
theorem extract_abstract_policy_witness :
    extract_abstract (.dict [("Abstract", .dict [("AbstractText",
        .list [.str "Background text." [], .str "Methods text." []])])]) =
      .ok "Background text. Methods text." :=
  (extract_abstract_policy [("Abstract", .dict [("AbstractText",
      .list [.str "Background text." [], .str "Methods text." []])])]).1
    [("AbstractText",
      .list [.str "Background text." [], .str "Methods text." []])]
    [.str "Background text." [], .str "Methods text." []] rfl rfl

/-- Author entries with no usable name fields contribute nothing. -/
theorem collectAuthors_nil_of (as : List PyVal)
    (h : ∀ a ∈ as, pyContains a "LastName" = false ∧
        pyContains a "CollectiveName" = false) :
    collectAuthors as = .ok [] := by
  induction as with
  | nil => rfl
  | cons a rest ih =>
    have ha := h a (List.mem_cons_self _ _)
    have hentry : authorEntry a = .ok none := by
      simp [authorEntry, ha.1, ha.2]
    simp [collectAuthors, hentry,
      ih (fun x hx => h x (List.mem_cons_of_mem _ hx))]

/-- C10 — the `"No Authors"` sentinel does not distinguish an absent or
empty author list from a nonempty one whose entries all lack a
`LastName` or `CollectiveName` key (e.g. entries with only a
`ForeName`): in all three cases the Authors field is the sentinel, and
unusable entries contribute no author string at all. -/
theorem extract_authors_sentinel (aes : List (String × PyVal)) :
    (dictLookup aes "AuthorList" = none →
        extract_authors (.dict aes) = .ok "No Authors") ∧
    (dictLookup aes "AuthorList" = some (.list []) →
        extract_authors (.dict aes) = .ok "No Authors") ∧
    (∀ as, dictLookup aes "AuthorList" = some (.list as) → as ≠ [] →
        (∀ a ∈ as, pyContains a "LastName" = false ∧
            pyContains a "CollectiveName" = false) →
        extract_authors (.dict aes) = .ok "No Authors") := by
  refine ⟨?_, ?_, ?_⟩
  · intro h
    simp [extract_authors, pyGet, h, pyTruthy, pyLen]
  · intro h
    simp [extract_authors, pyGet, h, pyTruthy, pyLen]
  · intro as h hne hall
    cases as with
    | nil => exact absurd rfl hne
    | cons a rest =>
      simp [extract_authors, pyGet, h, pyTruthy, pyLen, pyIter,
        collectAuthors_nil_of _ hall]

/-- Witness for `extract_authors_sentinel`: a nonempty author list whose
only entry has just a `ForeName`. -/
theorem extract_authors_sentinel_witness :
    extract_authors (.dict [("AuthorList",
        .list [.dict [("ForeName", .str "J" [])]])]) = .ok "No Authors" :=
  (extract_authors_sentinel _).2.2 _ rfl (by simp) (by decide)

/-!
## Well-shaped records

`extract_data` is defensive about absent fields but not about mis-shaped
ones: a present container field that is not a dictionary makes a `.get`
or an index raise.  `wellShaped` is the class of records on which no
field access raises: every accessed container is (absent or) a
dictionary, a `Language` or `KeywordList` value is not a nonempty
dictionary, author entries that pass a name-key test are dictionaries
whose bare name values are strings (they are fed to `'; '.join`), and a
present `ArticleIdList` is a list (or empty), since its items'
`.attributes` are read.
-/

/-- Is the value a dictionary? -/
def isDictB (v : PyVal) : Bool :=
  match v with
  | .dict _ => true
  | _ => false

/-- Is the value a list? -/
def isListB (v : PyVal) : Bool :=
  match v with
  | .list _ => true
  | _ => false

/-- The entries of a dictionary value (empty for other shapes). -/
def dictEntriesOf (v : PyVal) : List (String × PyVal) :=
  match v with
  | .dict es => es
  | _ => []

/-- Is the value anything but a nonempty dictionary? -/
def notNonemptyDict (v : PyVal) : Bool :=
  match v with
  | .dict es => es.isEmpty
  | _ => true

/-- The journal/date containers are dictionaries where accessed. -/
def journalShapeOk (aes : List (String × PyVal)) : Bool :=
  let j := (dictLookup aes "Journal").getD (.dict [])
  let ji := (dictLookup (dictEntriesOf j) "JournalIssue").getD (.dict [])
  let pd := (dictLookup (dictEntriesOf ji) "PubDate").getD (.dict [])
  isDictB j && isDictB ji && isDictB pd

/-- A present `Language` value must not be a nonempty dictionary (its
`[0]` would raise `KeyError`). -/
def languageShapeOk (aes : List (String × PyVal)) : Bool :=
  notNonemptyDict ((dictLookup aes "Language").getD (.str "" []))

/-- An author entry that passes a name-key test must be a dictionary,
and a bare `LastName`/`CollectiveName` value must be a string (it is
joined into the Authors field). -/
def authorShapeOk (a : PyVal) : Bool :=
  if pyContains a "LastName" && pyContains a "ForeName" then isDictB a
  else if pyContains a "LastName" then
    isDictB a &&
      isStrB ((dictLookup (dictEntriesOf a) "LastName").getD (.list []))
  else if pyContains a "CollectiveName" then
    isDictB a &&
      isStrB ((dictLookup (dictEntriesOf a) "CollectiveName").getD (.list []))
  else true

/-- A present `KeywordList` must not be a nonempty dictionary (its `[0]`
would raise `KeyError`). -/
def keywordShapeOk (ces : List (String × PyVal)) : Bool :=
  notNonemptyDict ((dictLookup ces "KeywordList").getD (.str "" []))

/-- `PubmedData` is a dictionary where accessed, and a present
`ArticleIdList` is a list or empty. -/
def pubmedShapeOk (pes : List (String × PyVal)) : Bool :=
  let pmd := (dictLookup pes "PubmedData").getD (.dict [])
  let ail := (dictLookup (dictEntriesOf pmd) "ArticleIdList").getD (.list [])
  isDictB pmd && (isListB ail || (pyLen ail == 0))

/-- A record none of whose field accesses raises. -/
def wellShaped (paper : PyVal) : Bool :=
  let cit := (dictLookup (dictEntriesOf paper) "MedlineCitation").getD
    (.dict [])
  let art := (dictLookup (dictEntriesOf cit) "Article").getD (.dict [])
  isDictB paper && isDictB cit && isDictB art &&
    journalShapeOk (dictEntriesOf art) &&
    languageShapeOk (dictEntriesOf art) &&
    ((pyIter ((dictLookup (dictEntriesOf art) "AuthorList").getD
        (.list []))).all authorShapeOk) &&
    keywordShapeOk (dictEntriesOf cit) &&
    pubmedShapeOk (dictEntriesOf paper)

/-- A value passing `isDictB` is a dictionary. -/
theorem isDictB_spec {v : PyVal} (h : isDictB v = true) :
    ∃ es, v = .dict es := by
  cases v with
  | str s a => simp [isDictB] at h
  | list xs => simp [isDictB] at h
  | dict es => exact ⟨es, rfl⟩

/-- A value passing `isStrB` is a string. -/
theorem isStrB_spec {v : PyVal} (h : isStrB v = true) :
    ∃ s a, v = .str s a := by
  cases v with
  | str s a => exact ⟨s, a, rfl⟩
  | list xs => simp [isStrB] at h
  | dict es => simp [isStrB] at h

/-- A contained key looks up to some value. -/
theorem lookup_of_contains {es : List (String × PyVal)} {k : String}
    (h : pyContains (.dict es) k = true) : ∃ v, dictLookup es k = some v := by
  simp only [pyContains, List.any_eq_true] at h
  obtain ⟨e, he, hp⟩ := h
  have hs : (es.find? (fun e => e.1 == k)).isSome :=
    List.find?_isSome.mpr ⟨e, he, hp⟩
  rcases Option.isSome_iff_exists.mp hs with ⟨e2, he2⟩
  exact ⟨e2.2, by simp [dictLookup, he2]⟩

/-- The abstract extraction never raises once the article is a
dictionary: its try-block swallows every exception. -/
theorem extract_abstract_dict_ok (aes : List (String × PyVal)) :
    ∃ s, extract_abstract (.dict aes) = .ok s := by
  rw [extract_abstract]
  simp only [pyGet]
  cases hg : (pyTruthy ((dictLookup aes "Abstract").getD (.dict [])) &&
      pyContains ((dictLookup aes "Abstract").getD (.dict [])) "AbstractText")
  · exact ⟨"No Abstract", by simp [hg]⟩
  · cases ht : tryAbstract ((dictLookup aes "Abstract").getD (.dict [])) with
    | ok a => exact ⟨a, by simp [hg, ht]⟩
    | error e => exact ⟨"No Abstract", by simp [hg, ht]⟩

/-- The language extraction succeeds on language-well-shaped articles. -/
theorem extract_language_ok (aes : List (String × PyVal))
    (h : languageShapeOk aes = true) :
    ∃ v, extract_language (.dict aes) = .ok v := by
  rw [extract_language]
  cases hL : dictLookup aes "Language" with
  | none =>
    simp [not_contains_of_lookup_none hL]
  | some v =>
    simp only [contains_of_lookup hL, if_true, pyIndexKey_dict_some hL]
    cases v with
    | str s a =>
      by_cases h0 : 0 < pyLen (.str s a)
      · rw [if_pos h0]
        cases hd : s.data with
        | nil =>
          exfalso
          have h0' : 0 < s.data.length := h0
          rw [hd] at h0'
          simp at h0'
        | cons c cs =>
          have hd' : s.toList = c :: cs := hd
          exact ⟨.str c.toString [], by simp [pyIndex0, hd, hd']⟩
      · rw [if_neg h0]
        exact ⟨_, rfl⟩
    | list xs =>
      cases xs with
      | nil => simp [pyLen]
      | cons x xs => exact ⟨x, by simp [pyLen, pyIndex0]⟩
    | dict les =>
      rw [languageShapeOk, hL] at h
      have hles : les = [] := by simpa [notNonemptyDict] using h
      subst hles
      simp [pyLen]

/-- A shape-correct author entry yields a name that is a string, or
nothing, and never raises. -/
theorem authorEntry_ok_of_shape (a : PyVal) (h : authorShapeOk a = true) :
    (∃ v, authorEntry a = .ok (some v) ∧ isStrB v = true) ∨
      authorEntry a = .ok none := by
  rw [authorShapeOk] at h
  rw [authorEntry]
  by_cases h1 : (pyContains a "LastName" && pyContains a "ForeName") = true
  · rw [if_pos h1] at h ⊢
    obtain ⟨es, rfl⟩ := isDictB_spec h
    have h1' := h1
    simp only [Bool.and_eq_true] at h1'
    obtain ⟨l, hl⟩ := lookup_of_contains h1'.1
    obtain ⟨f, hf⟩ := lookup_of_contains h1'.2
    rw [pyIndexKey_dict_some hl, pyIndexKey_dict_some hf]
    exact Or.inl ⟨_, rfl, rfl⟩
  · rw [if_neg h1] at h ⊢
    by_cases h2 : pyContains a "LastName" = true
    · rw [if_pos h2] at h ⊢
      simp only [Bool.and_eq_true] at h
      obtain ⟨es, rfl⟩ := isDictB_spec h.1
      obtain ⟨v, hv⟩ := lookup_of_contains h2
      have hstr := h.2
      rw [dictEntriesOf, hv] at hstr
      obtain ⟨t, b, rfl⟩ := isStrB_spec hstr
      rw [pyIndexKey_dict_some hv]
      exact Or.inl ⟨_, rfl, rfl⟩
    · rw [if_neg h2] at h ⊢
      by_cases h3 : pyContains a "CollectiveName" = true
      · rw [if_pos h3] at h ⊢
        simp only [Bool.and_eq_true] at h
        obtain ⟨es, rfl⟩ := isDictB_spec h.1
        obtain ⟨v, hv⟩ := lookup_of_contains h3
        have hstr := h.2
        rw [dictEntriesOf, hv] at hstr
        obtain ⟨t, b, rfl⟩ := isStrB_spec hstr
        rw [pyIndexKey_dict_some hv]
        exact Or.inl ⟨_, rfl, rfl⟩
      · rw [if_neg h3]
        exact Or.inr rfl

/-- Collecting over shape-correct entries succeeds and yields only
strings. -/
theorem collectAuthors_ok (as : List PyVal)
    (h : ∀ a ∈ as, authorShapeOk a = true) :
    ∃ names, collectAuthors as = .ok names ∧ names.all isStrB = true := by
  induction as with
  | nil => exact ⟨[], rfl, rfl⟩
  | cons a rest ih =>
    obtain ⟨names, hnames, hstr⟩ :=
      ih (fun x hx => h x (List.mem_cons_of_mem _ hx))
    rcases authorEntry_ok_of_shape a (h a (List.mem_cons_self _ _)) with
      ⟨v, hv, hvs⟩ | hnone
    · refine ⟨v :: names, by simp [collectAuthors, hv, hnames], ?_⟩
      simp only [List.all_eq_true] at hstr ⊢
      intro x hx
      rcases List.mem_cons.mp hx with rfl | hx
      · exact hvs
      · exact hstr x hx
    · exact ⟨names, by simp [collectAuthors, hnone, hnames], hstr⟩

/-- The authors extraction succeeds on shape-correct author lists. -/
theorem extract_authors_ok (aes : List (String × PyVal))
    (h : (pyIter ((dictLookup aes "AuthorList").getD (.list []))).all
        authorShapeOk = true) :
    ∃ s, extract_authors (.dict aes) = .ok s := by
  rw [extract_authors]
  simp only [pyGet]
  cases ht : pyTruthy ((dictLookup aes "AuthorList").getD (.list []))
  · exact ⟨"No Authors", by simp [ht]⟩
  · obtain ⟨names, hnames, hstr⟩ :=
      collectAuthors_ok
        (pyIter ((dictLookup aes "AuthorList").getD (.list [])))
        (fun x hx => List.all_eq_true.mp h x hx)
    cases he : names.isEmpty
    · exact ⟨String.intercalate "; " (names.map pyStr),
        by simp [ht, hnames, he, pyJoin, hstr]⟩
    · exact ⟨"No Authors", by simp [ht, hnames, he]⟩

/-- The keywords extraction succeeds on keyword-well-shaped citations. -/
theorem extract_keywords_ok (ces : List (String × PyVal))
    (h : keywordShapeOk ces = true) :
    ∃ s, extract_keywords (.dict ces) = .ok s := by
  rw [extract_keywords]
  simp only [pyGet]
  suffices hkg : ∃ ks, keywordGroup
      ((dictLookup ces "KeywordList").getD (.list [])) = .ok ks by
    obtain ⟨ks, hks⟩ := hkg
    cases he : ks.isEmpty
    · exact ⟨String.intercalate "; " ks, by simp [hks, he]⟩
    · exact ⟨"No Keywords", by simp [hks, he]⟩
  cases hlk : dictLookup ces "KeywordList" with
  | none => exact ⟨[], by simp [keywordGroup, pyTruthy, pyLen]⟩
  | some v =>
    simp only [Option.getD_some]
    rw [keywordShapeOk, hlk] at h
    simp only [Option.getD_some] at h
    cases v with
    | str s a =>
      rw [keywordGroup]
      cases hd : s.data with
      | nil =>
        have hlen : pyTruthy (.str s a) = false := by
          have hz : s.data.length = 0 := by rw [hd]; rfl
          simp [pyTruthy, pyLen]
          exact hz
        simp [hlen]
      | cons c cs =>
        have hd' : s.toList = c :: cs := hd
        by_cases h0 : (pyTruthy (.str s a) && decide (0 < pyLen (.str s a)))
            = true
        · rw [if_pos h0]
          exact ⟨(pyIter (.str c.toString [])).map pyStr,
            by simp [pyIndex0, hd, hd']⟩
        · rw [if_neg h0]
          exact ⟨[], rfl⟩
    | list xs =>
      rw [keywordGroup]
      cases xs with
      | nil => simp [pyTruthy, pyLen]
      | cons x rest =>
        by_cases h0 : (pyTruthy (.list (x :: rest)) &&
            decide (0 < pyLen (.list (x :: rest)))) = true
        · rw [if_pos h0]
          exact ⟨(pyIter x).map pyStr, by simp [pyIndex0]⟩
        · rw [if_neg h0]
          exact ⟨[], rfl⟩
    | dict kes =>
      have hkes : kes = [] := by simpa [notNonemptyDict] using h
      subst hkes
      exact ⟨[], by simp [keywordGroup, pyTruthy, pyLen]⟩

/-- The DOI extraction succeeds when `PubmedData` is a dictionary. -/
theorem extract_doi_ok (pes : List (String × PyVal))
    (h : pubmedShapeOk pes = true) :
    ∃ s, extract_doi (.dict pes) = .ok s := by
  rw [extract_doi]
  simp only [pyGet]
  rw [pubmedShapeOk] at h
  simp only [Bool.and_eq_true] at h
  obtain ⟨pmes, hpm⟩ := isDictB_spec h.1
  rw [hpm]
  exact ⟨if pyTruthy ((dictLookup pmes "ArticleIdList").getD (.list []))
      then findDoi (pyIter ((dictLookup pmes "ArticleIdList").getD
        (.list [])))
      else "No DOI", by simp [pyGet]⟩

/-- The journal/date containers unfold to dictionaries on journal-shaped
articles. -/
theorem journal_gets_ok (aes : List (String × PyVal))
    (h : journalShapeOk aes = true) :
    ∃ jes, (dictLookup aes "Journal").getD (.dict []) = .dict jes ∧
      ∃ jies, (dictLookup jes "JournalIssue").getD (.dict []) = .dict jies ∧
        ∃ pdes, (dictLookup jies "PubDate").getD (.dict []) = .dict pdes := by
  rw [journalShapeOk] at h
  simp only [Bool.and_eq_true] at h
  obtain ⟨⟨hj, hji⟩, hpd⟩ := h
  obtain ⟨jes, hjes⟩ := isDictB_spec hj
  rw [hjes, dictEntriesOf] at hji hpd
  obtain ⟨jies, hjies⟩ := isDictB_spec hji
  rw [hjies, dictEntriesOf] at hpd
  obtain ⟨pdes, hpdes⟩ := isDictB_spec hpd
  exact ⟨jes, hjes, jies, hjies, pdes, hpdes⟩

/-- Extraction of a well-shaped record succeeds. -/
theorem extract_record_ok (p : PyVal) (h : wellShaped p = true) :
    ∃ r, extract_record p = .ok r := by
  rw [wellShaped] at h
  simp only [Bool.and_eq_true] at h
  obtain ⟨⟨⟨⟨⟨⟨⟨hp, hcitd⟩, hartd⟩, hj⟩, hlang⟩, hauth⟩, hkw⟩, hpmd⟩ := h
  obtain ⟨pes, rfl⟩ := isDictB_spec hp
  rw [dictEntriesOf] at hcitd hartd hj hlang hauth hkw hpmd
  obtain ⟨ces, hcit⟩ := isDictB_spec hcitd
  rw [hcit, dictEntriesOf] at hartd hj hlang hauth hkw
  obtain ⟨aes, hart⟩ := isDictB_spec hartd
  rw [hart, dictEntriesOf] at hj hlang hauth
  obtain ⟨jes, hjes, jies, hjies, pdes, hpdes⟩ := journal_gets_ok aes hj
  obtain ⟨abs, habs⟩ := extract_abstract_dict_ok aes
  obtain ⟨lang, hlang2⟩ := extract_language_ok aes hlang
  obtain ⟨auth, hauth2⟩ := extract_authors_ok aes hauth
  obtain ⟨kws, hkw2⟩ := extract_keywords_ok ces hkw
  obtain ⟨doi, hdoi⟩ := extract_doi_ok pes hpmd
  rw [extract_record]
  simp only [pyGet, hcit, hart, hjes, hjies, hpdes, habs, hlang2,
    hauth2, hkw2, hdoi]
  exact ⟨_, rfl⟩

/-- Extraction succeeds record by record, one row each. -/
theorem extract_data_ok_of (papers : List PyVal)
    (h : ∀ p ∈ papers, ∃ r, extract_record p = .ok r) :
    ∃ t, extract_data papers = .ok t ∧ t.length = papers.length := by
  induction papers with
  | nil => exact ⟨[], rfl, rfl⟩
  | cons p ps ih =>
    obtain ⟨r, hr⟩ := h p (List.mem_cons_self _ _)
    obtain ⟨t, ht, hlen⟩ := ih (fun q hq => h q (List.mem_cons_of_mem _ hq))
    exact ⟨r :: t, by simp [extract_data, hr, ht], by simp [hlen]⟩

/-- C1 amended — for every sequence of well-shaped RawRecords (absent
fields are fine; present container fields must be dictionaries where the
code accesses them as such), `extract` succeeds and returns a Table with
exactly one Row per input RawRecord; sentinels are substituted for
absent fields rather than raising.  (On a mis-shaped container the code
raises instead — see the counterexample.) -/
theorem extract_data_length_of_wellShaped (papers : List PyVal)
    (h : ∀ p ∈ papers, wellShaped p = true) :
    ∃ t, extract_data papers = .ok t ∧ t.length = papers.length :=
  extract_data_ok_of papers (fun p hp => extract_record_ok p (h p hp))

/-- Witness for `extract_data_length_of_wellShaped`: a record with every
field absent still yields exactly one (all-sentinel) row. -/
theorem extract_data_length_of_wellShaped_witness :
    ∃ t, extract_data [PyVal.dict []] = .ok t ∧ t.length = 1 :=
  extract_data_length_of_wellShaped [PyVal.dict []] (by decide)

/-- C1 counterexample — extraction is not total on mis-shaped records: a
record whose `MedlineCitation` is a plain string makes
`citation.get('Article', ...)` raise `AttributeError`, so `extract_data`
raises instead of substituting sentinels. -/
theorem extract_data_raises_on_misshaped_record :
    extract_data [.dict [("MedlineCitation", .str "oops" [])]] =
      .error "AttributeError" := rfl

end Scraper
